import Mathlib

/-!
Shallow embedding of the Anki add-on `addonmonolith/__init__.py` and proofs
about its three daily operations: leech suspension (`suspendLeeches`), deck
retirement (`retire`) and quota adjustment (`adjustReview`), plus the shared
dry-run fence and the `last_run` daily gate.

Modelling conventions:
* Python floats are modelled as rationals (`ℚ`); `math.floor` is `⌊·⌋` and
  Python `int(...)` is truncation toward zero (`pyInt`).
* The host collection is a list of `Card` records carrying the attributes the
  add-on queries (review/suspended flags, tags, deck name, interval); the
  revlog aggregate `select sum(time)/1000.0 from revlog where cid = ?` is an
  oracle `rl : ℤ → ℚ` giving the summed milliseconds per card id.
* Each operation is a pure function returning the list of host interactions
  (`Event`) it performs, in order; the mutating wrappers additionally
  transform the collection (suspension flags, note-level tags), and the
  retirement operation threads the mutated collection into its second query
  and across `deck_retirements` entries.  The `dryrun_fence` wrappers leave
  the collection unchanged and emit no event when `dryrun` is set.
* A Python exception (the `zip` unpacking of an empty list, or the `assert`)
  aborts the operation: the model returns only the events issued before the
  raising statement.
-/

namespace AddonMonolith

/-- Mirror of the Python dataclass `TimeLimitConfig`. -/
structure TimeLimitConfig where
  deck_name : String
  review_time_limit_sec : ℚ := 3600
  new_card_assumed_repeat : ℤ := 5
  deriving DecidableEq

/-- Mirror of the Python dataclass `RetirementConfig`. -/
structure RetirementConfig where
  deck_name : String
  max_interval_days : ℚ
  deriving DecidableEq

/-- Mirror of the Python dataclass `MonolithConfig` (defaults as in source). -/
structure MonolithConfig where
  review_time_limits : List TimeLimitConfig
  deck_retirements : List RetirementConfig
  verbose : Bool := true
  dryrun : Bool := true
  debug : Bool := false
  retired_tag : String := "Retired"
  suspend_frac : ℚ := 0
  unsuspend_buffer_frac : ℚ := 1
  min_count : ℤ := 0
  goal_retention : ℚ := 4/5
  days_to_avg : ℤ := 30
  default_review_seconds : ℚ := 60
  last_run : ℚ := 0
  deriving DecidableEq

/-- Host card as seen through the Anki query API: card id, its note's id
(tags live on notes, so cards sharing a note share tags), deck name, review
and suspended flags, the note's tags, and the current interval in days as
returned by `card_stats_data(ind).interval`. -/
structure Card where
  cid : ℤ
  nid : ℤ
  deck : String
  isReview : Bool
  isSuspended : Bool
  tags : List String
  interval : ℚ
  deriving DecidableEq

/-- Host interaction performed by an operation, in program order.  The first
five constructors are read-only queries, the last five are mutations. -/
inductive Event where
  | findCards (query : String)
  | dbSumTime (cid : ℤ)
  | cardStats (cid : ℤ)
  | dbAvgTime (deckName : String)
  | dbAvgLapse (deckName : String)
  | suspend (cards : Finset ℤ)
  | unsuspend (cards : Finset ℤ)
  | tag (cards : Finset ℤ) (tagName : String)
  | saveDeckConfig (deckName : String) (newPerDay revPerDay : ℤ)
  | saveAddonConfig (lastRun : ℚ)
  deriving DecidableEq

/-- Whether an event is a host mutation (suspend/unsuspend/tag/save), as
opposed to a read-only query. -/
def Event.isMutation : Event → Bool
  | .suspend _ => true
  | .unsuspend _ => true
  | .tag _ _ => true
  | .saveDeckConfig _ _ _ => true
  | .saveAddonConfig _ => true
  | _ => false

/-- Effect of `mw.col.sched.suspend_cards` on the collection: the listed
cards become suspended. -/
def applySuspend (col : List Card) (ids : Finset ℤ) : List Card :=
  col.map (fun c => if c.cid ∈ ids then { c with isSuspended := true } else c)

/-- Effect of `mw.col.sched.unsuspend_cards` on the collection. -/
def applyUnsuspend (col : List Card) (ids : Finset ℤ) : List Card :=
  col.map (fun c => if c.cid ∈ ids then { c with isSuspended := false } else c)

/-- Effect of `note.add_tag` on one card's note record. -/
def addTag (c : Card) (tagName : String) : Card :=
  if c.tags.contains tagName then c else { c with tags := c.tags ++ [tagName] }

/-- Ids of the notes of the given cards (`mw.col.get_card(card).note()` for
each card of the tagging loop, deduplicated). -/
def notesOf (col : List Card) (ids : Finset ℤ) : Finset ℤ :=
  ((col.filter (fun c => c.cid ∈ ids)).map Card.nid).toFinset

/-- Effect of `mw.col.update_notes` after the tagging loop: the tag is added
to every card belonging to one of the notes — including sibling cards of the
same note that were not in the id list. -/
def applyTagNotes (col : List Card) (nids : Finset ℤ) (tagName : String) : List Card :=
  col.map (fun c => if c.nid ∈ nids then addTag c tagName else c)

/-- Mirror of `suspend_cards`, which is wrapped by `dryrun_fence`: under
`dryrun` the call is a no-op, otherwise it suspends the cards and issues one
suspend mutation event.  The payload is the set of card ids passed to
`mw.col.sched.suspend_cards`; the updated collection is returned. -/
def suspend_cards (cfg : MonolithConfig) (col : List Card) (cards : Finset ℤ) :
    List Card × List Event :=
  if cfg.dryrun then (col, []) else (applySuspend col cards, [Event.suspend cards])

/-- Mirror of `unsuspend_cards` (wrapped by `dryrun_fence`). -/
def unsuspend_cards (cfg : MonolithConfig) (col : List Card) (cards : Finset ℤ) :
    List Card × List Event :=
  if cfg.dryrun then (col, []) else (applyUnsuspend col cards, [Event.unsuspend cards])

/-- Mirror of `tag_cards` (wrapped by `dryrun_fence`): the tag is added at
note level (lines 97-106), so every card sharing a note with a listed card is
tagged too.  The event payload is the set of card ids passed to the call. -/
def tag_cards (cfg : MonolithConfig) (col : List Card) (cards : Finset ℤ)
    (tagName : String) : List Card × List Event :=
  if cfg.dryrun then (col, [])
  else (applyTagNotes col (notesOf col cards) tagName, [Event.tag cards tagName])

/-- Mirror of `save_config` (wrapped by `dryrun_fence`): persists the deck
configuration carrying the two freshly written per-day quotas. -/
def save_config (cfg : MonolithConfig) (deckName : String) (newPerDay revPerDay : ℤ) :
    List Event :=
  if cfg.dryrun then [] else [Event.saveDeckConfig deckName newPerDay revPerDay]

/-- Python `x or default` applied to a float-or-None value `x` (the result of
`mw.col.db.scalar`): the default is taken when `x` is `None` and also when it
is the number `0`, since `0.0` is falsy in Python. -/
def pyOr (x : Option ℚ) (d : ℚ) : ℚ :=
  match x with
  | none => d
  | some v => if v = 0 then d else v

/-- Python `int(...)` applied to a float: truncation toward zero. -/
def pyInt (q : ℚ) : ℤ :=
  if 0 ≤ q then ⌊q⌋ else ⌈q⌉

/-- Query string built at `suspendLeeches` line 125. -/
def leechCandidateQuery (cfg : MonolithConfig) : String :=
  "is:review and (-tag:" ++ cfg.retired_tag ++ " or -is:suspended)"

/-- Query string built at `suspendLeeches` line 127. -/
def suspendedReviewQuery : String :=
  "is:review and is:suspended"

/-- Predicate meaning of `leechCandidateQuery`: review cards that are not
both tagged retired and suspended. -/
def leechCandidatePred (cfg : MonolithConfig) (c : Card) : Bool :=
  c.isReview && (!(c.tags.contains cfg.retired_tag) || !c.isSuspended)

/-- Predicate meaning of `suspendedReviewQuery`. -/
def suspendedReviewPred (c : Card) : Bool :=
  c.isReview && c.isSuspended

/-- Mirror of `mw.col.find_cards`: the ids of the cards in the collection
matching the query predicate, in collection order. -/
def findCardIds (col : List Card) (p : Card → Bool) : List ℤ :=
  (col.filter p).map Card.cid

/-- Order used by Python `sorted(zip(times, inds))`: lexicographic order on
(time, card id) pairs. -/
def pairLe (a b : ℚ × ℤ) : Prop :=
  a.1 < b.1 ∨ (a.1 = b.1 ∧ a.2 ≤ b.2)

instance : DecidableRel pairLe := fun a b =>
  inferInstanceAs (Decidable (a.1 < b.1 ∨ (a.1 = b.1 ∧ a.2 ≤ b.2)))

instance : IsTotal (ℚ × ℤ) pairLe :=
  ⟨fun a b => by
    rcases lt_trichotomy a.1 b.1 with h | h | h
    · exact Or.inl (Or.inl h)
    · rcases le_total a.2 b.2 with h2 | h2
      · exact Or.inl (Or.inr ⟨h, h2⟩)
      · exact Or.inr (Or.inr ⟨h.symm, h2⟩)
    · exact Or.inr (Or.inl h)⟩

instance : IsTrans (ℚ × ℤ) pairLe :=
  ⟨fun a b c hab hbc => by
    rcases hab with h1 | ⟨e1, l1⟩
    · rcases hbc with h2 | ⟨e2, _⟩
      · exact Or.inl (h1.trans h2)
      · exact Or.inl (e2 ▸ h1)
    · rcases hbc with h2 | ⟨e2, l2⟩
      · exact Or.inl (e1 ▸ h2)
      · exact Or.inr ⟨e1.trans e2, l1.trans l2⟩⟩

/-- Mirror of `suspendLeeches` lines 138-140: `suspend_ind` is the floor of
`N * (1 - suspend_frac)`, then raised to at least `min_count`, then forced
into bounds by `max(min(·, N-1), 0)`. -/
def leechSuspendInd (cfg : MonolithConfig) (n : ℕ) : ℤ :=
  max (min (max ⌊(n : ℚ) * (1 - cfg.suspend_frac)⌋ cfg.min_count) ((n : ℤ) - 1)) 0

/-- Mirror of `suspendLeeches` line 143: `unsuspend_frac`. -/
def leechUnsuspendFrac (cfg : MonolithConfig) : ℚ :=
  max 0 (cfg.suspend_frac + cfg.unsuspend_buffer_frac)

/-- Mirror of `suspendLeeches` lines 144-146: `unsuspend_ind`, computed like
`suspend_ind` but from `unsuspend_frac`. -/
def leechUnsuspendInd (cfg : MonolithConfig) (n : ℕ) : ℤ :=
  max (min (max ⌊(n : ℚ) * (1 - leechUnsuspendFrac cfg)⌋ cfg.min_count) ((n : ℤ) - 1)) 0

/-- Mirror of `suspendLeeches` line 151:
`set(review_card_inds[suspend_ind + 1:]) - suspended_cards`. -/
def cardsToSuspend (sortedInds : List ℤ) (suspendInd : ℤ) (suspended : Finset ℤ) : Finset ℤ :=
  (sortedInds.drop (suspendInd + 1).toNat).toFinset \ suspended

/-- Mirror of `suspendLeeches` line 152:
`set(review_card_inds[:unsuspend_ind]) & suspended_cards`. -/
def cardsToUnsuspend (sortedInds : List ℤ) (unsuspendInd : ℤ) (suspended : Finset ℤ) : Finset ℤ :=
  (sortedInds.take unsuspendInd.toNat).toFinset ∩ suspended

/-- Mirror of `suspendLeeches` lines 130-136: pair each candidate card id
with its cumulative review time in seconds and sort the pairs as Python
`sorted` does (lexicographically on (time, id)). -/
def leechSortedPairs (cfg : MonolithConfig) (col : List Card) (rl : ℤ → ℚ) : List (ℚ × ℤ) :=
  let inds := findCardIds col (leechCandidatePred cfg)
  let times := inds.map (fun cid => rl cid / 1000)
  List.insertionSort pairLe (times.zip inds)

/-- Candidate card ids reordered by ascending cumulative review time (the
`review_card_inds` after the `zip(*sorted(zip(...)))` reassignment). -/
def leechSortedInds (cfg : MonolithConfig) (col : List Card) (rl : ℤ → ℚ) : List ℤ :=
  (leechSortedPairs cfg col rl).map Prod.snd

/-- Mirror of `suspendLeeches` (lines 121-163).  `day` is the value of
`get_day()`, `confirm` the answer of `askUser`.  The returned list is the
sequence of host interactions.  When the candidate list is empty the
`zip(*sorted(...))` unpacking raises, and when the `assert` at line 149
fails the function also raises; in both cases only the already-issued
queries are returned. -/
def suspendLeechesRun (cfg : MonolithConfig) (col : List Card) (rl : ℤ → ℚ)
    (day : ℚ) (confirm : Bool) : List Event :=
  if cfg.last_run ≥ day then []
  else
    let review_card_inds := findCardIds col (leechCandidatePred cfg)
    let suspended_cards := (findCardIds col suspendedReviewPred).toFinset
    let queries := [Event.findCards (leechCandidateQuery cfg),
        Event.findCards suspendedReviewQuery] ++ review_card_inds.map Event.dbSumTime
    if review_card_inds = [] then queries
    else
      let sortedInds := leechSortedInds cfg col rl
      let n := sortedInds.length
      let suspend_ind := leechSuspendInd cfg n
      let unsuspend_ind := leechUnsuspendInd cfg n
      if ¬ unsuspend_ind ≤ suspend_ind then queries
      else
        queries ++
          (if !cfg.verbose || confirm then
            (suspend_cards cfg col (cardsToSuspend sortedInds suspend_ind suspended_cards)).2 ++
              (unsuspend_cards cfg
                (suspend_cards cfg col (cardsToSuspend sortedInds suspend_ind suspended_cards)).1
                (cardsToUnsuspend sortedInds unsuspend_ind suspended_cards)).2
          else [])

/-- Anki `"deck:NAME"` search semantics: the deck itself or any subdeck
(`NAME::child`). -/
def deckMatches (deckName : String) (c : Card) : Bool :=
  c.deck == deckName || c.deck.startsWith (deckName ++ "::")

/-- Query string built at `retire` lines 171-173. -/
def retireCandidateQuery (cfg : MonolithConfig) (rc : RetirementConfig) : String :=
  "\"deck:" ++ rc.deck_name ++ "\" and is:review and (-is:suspended or -tag:" ++
    cfg.retired_tag ++ ")"

/-- Query string built at `retire` lines 192-194. -/
def retiredSuspendedQuery (cfg : MonolithConfig) (rc : RetirementConfig) : String :=
  "\"deck:" ++ rc.deck_name ++ "\" and is:review and is:suspended and tag:" ++
    cfg.retired_tag

/-- Predicate meaning of `retireCandidateQuery`: review cards of the deck
that are not both suspended and tagged retired. -/
def retireCandidatePred (cfg : MonolithConfig) (rc : RetirementConfig) (c : Card) : Bool :=
  deckMatches rc.deck_name c && c.isReview &&
    (!c.isSuspended || !(c.tags.contains cfg.retired_tag))

/-- Predicate meaning of `retiredSuspendedQuery`: review cards of the deck
that are both suspended and tagged retired. -/
def retiredSuspendedPred (cfg : MonolithConfig) (rc : RetirementConfig) (c : Card) : Bool :=
  deckMatches rc.deck_name c && c.isReview && c.isSuspended &&
    c.tags.contains cfg.retired_tag

/-- Mirror of `mw.col.card_stats_data(ind).interval`: look the card up by id
in the collection. -/
def intervalOf (col : List Card) (cid : ℤ) : ℚ :=
  match col.find? (fun c => c.cid == cid) with
  | some c => c.interval
  | none => 0

/-- Mirror of `retire` lines 176-180: candidate ids whose interval strictly
exceeds the threshold. -/
def retireToSuspend (cfg : MonolithConfig) (col : List Card) (rc : RetirementConfig) :
    List ℤ :=
  (findCardIds col (retireCandidatePred cfg rc)).filter
    (fun cid => decide (rc.max_interval_days < intervalOf col cid))

/-- Mirror of `retire` lines 197-201: retired-and-suspended ids whose
interval no longer exceeds the threshold. -/
def retireToUnsuspend (cfg : MonolithConfig) (col : List Card) (rc : RetirementConfig) :
    List ℤ :=
  (findCardIds col (retiredSuspendedPred cfg rc)).filter
    (fun cid => decide (intervalOf col cid ≤ rc.max_interval_days))

/-- State of the collection after the suspend-and-tag step of one `retire`
loop iteration (lines 182-189): when the step is taken (`verbose` off or the
user confirmed), the over-threshold candidates are suspended and their notes
tagged; otherwise the collection is unchanged.  The second query of the
iteration runs on this state. -/
def retireCol1 (cfg : MonolithConfig) (col : List Card) (rc : RetirementConfig)
    (confirmRetire : Bool) : List Card :=
  if !cfg.verbose || confirmRetire then
    (tag_cards cfg (suspend_cards cfg col (retireToSuspend cfg col rc).toFinset).1
      (retireToSuspend cfg col rc).toFinset cfg.retired_tag).1
  else col

/-- Mirror of the body of the `retire` loop (lines 170-208) for one
configured deck; `confirmRetire` and `confirmUnsuspend` are the two
`askUser` answers.  The first query and the over-threshold selection use the
incoming collection; the second query and the unsuspend selection run on the
post-suspend-and-tag state `retireCol1`.  Returns the final collection and
the host interactions. -/
def retireRunDeck (cfg : MonolithConfig) (col : List Card) (rc : RetirementConfig)
    (confirmRetire confirmUnsuspend : Bool) : List Card × List Event :=
  let deck_card_inds := findCardIds col (retireCandidatePred cfg rc)
  let ev1 :=
    if !cfg.verbose || confirmRetire then
      (suspend_cards cfg col (retireToSuspend cfg col rc).toFinset).2 ++
        (tag_cards cfg (suspend_cards cfg col (retireToSuspend cfg col rc).toFinset).1
          (retireToSuspend cfg col rc).toFinset cfg.retired_tag).2
    else []
  let col1 := retireCol1 cfg col rc confirmRetire
  let retired_inds := findCardIds col1 (retiredSuspendedPred cfg rc)
  let step2 :=
    if !cfg.verbose || confirmUnsuspend then
      unsuspend_cards cfg col1 (retireToUnsuspend cfg col1 rc).toFinset
    else (col1, [])
  (step2.1,
    [Event.findCards (retireCandidateQuery cfg rc)] ++ deck_card_inds.map Event.cardStats ++
      ev1 ++
      ([Event.findCards (retiredSuspendedQuery cfg rc)] ++ retired_inds.map Event.cardStats ++
        step2.2))

/-- One `deck_retirements` iteration as a fold step: later entries see the
collection state already mutated by earlier entries. -/
def retireStep (cfg : MonolithConfig) (confirmRetire confirmUnsuspend : Bool)
    (acc : List Card × List Event) (rc : RetirementConfig) : List Card × List Event :=
  ((retireRunDeck cfg acc.1 rc confirmRetire confirmUnsuspend).1,
    acc.2 ++ (retireRunDeck cfg acc.1 rc confirmRetire confirmUnsuspend).2)

/-- Mirror of `retire` (lines 166-208): the daily gate, then the loop over
`deck_retirements`, threading the collection state through the iterations. -/
def retireRun (cfg : MonolithConfig) (col : List Card) (day : ℚ)
    (confirmRetire confirmUnsuspend : Bool) : List Card × List Event :=
  if cfg.last_run ≥ day then (col, [])
  else cfg.deck_retirements.foldl (retireStep cfg confirmRetire confirmUnsuspend) (col, [])

/-- Average review seconds actually used by `adjustReview` (lines 225-235):
the measured window average when the scalar query returns a truthy value,
the configured default otherwise. -/
def avgReviewUsed (cfg : MonolithConfig) (measured : Option ℚ) : ℚ :=
  pyOr measured cfg.default_review_seconds

/-- Retention rate actually used by `adjustReview` (lines 237-247):
one minus the (Python-`or`-defaulted) measured lapse rate. -/
def retentionUsed (cfg : MonolithConfig) (measuredLapse : Option ℚ) : ℚ :=
  1 - pyOr measuredLapse (1 - cfg.goal_retention)

/-- Mirror of `adjustReview` lines 250-252: the review quota written into the
deck configuration.  `db.1` is the scalar result of the average-time query,
`db.2` of the average-lapse query (`None` when the window has no rows). -/
def quotaRevPerDay (cfg : MonolithConfig) (tlc : TimeLimitConfig)
    (db : Option ℚ × Option ℚ) : ℤ :=
  pyInt (tlc.review_time_limit_sec * retentionUsed cfg db.2 / avgReviewUsed cfg db.1)

/-- Mirror of `adjustReview` lines 253-257: the new-card quota. -/
def quotaNewPerDay (cfg : MonolithConfig) (tlc : TimeLimitConfig)
    (db : Option ℚ × Option ℚ) : ℤ :=
  pyInt (tlc.review_time_limit_sec * retentionUsed cfg db.2 /
    ((tlc.new_card_assumed_repeat : ℚ) * avgReviewUsed cfg db.1))

/-- Mirror of the body of the `adjustReview` loop (lines 222-265) for one
configured deck. -/
def adjustDeck (cfg : MonolithConfig) (tlc : TimeLimitConfig)
    (db : Option ℚ × Option ℚ) (confirm : Bool) : List Event :=
  [Event.dbAvgTime tlc.deck_name, Event.dbAvgLapse tlc.deck_name] ++
    (if !cfg.verbose || confirm then
      save_config cfg tlc.deck_name (quotaNewPerDay cfg tlc db) (quotaRevPerDay cfg tlc db)
    else [])

/-- Mirror of `adjustReview` (lines 211-265): the daily gate, then the loop
over `review_time_limits`; `db` maps a deck name to the two scalar results
for its trailing window. -/
def adjustReviewRun (cfg : MonolithConfig) (db : String → Option ℚ × Option ℚ)
    (day : ℚ) (confirm : Bool) : List Event :=
  if cfg.last_run ≥ day then []
  else
    (cfg.review_time_limits.map
      (fun tlc => adjustDeck cfg tlc (db tlc.deck_name) confirm)).flatten

/-- Mirror of `update_last_run` (lines 268-274), wrapped whole by
`dryrun_fence`: under `dryrun` nothing happens at all; otherwise, when
`last_run` is older than the start of the current day, it is set to that
timestamp and the add-on configuration is persisted.  Returns the updated
configuration and the host interactions. -/
def update_last_run (cfg : MonolithConfig) (day : ℚ) : MonolithConfig × List Event :=
  if cfg.dryrun then (cfg, [])
  else if cfg.last_run ≥ day then (cfg, [])
  else ({ cfg with last_run := day }, [Event.saveAddonConfig day])

/-! Concrete scenarios used by the spec's numeric examples. -/

/-- Configuration of the spec's N=10 leech scenario: `suspend_frac = 0.2`,
`min_count = 0`, confirmations skipped (`verbose = false`), mutations live
(`dryrun = false`), not yet run today. -/
def exCfg : MonolithConfig :=
  { review_time_limits := [], deck_retirements := [], verbose := false,
    dryrun := false, suspend_frac := 1/5, min_count := 0, last_run := 0 }

/-- Review card with a given id (one note per card): not suspended, no
tags, deck "D". -/
def exCard (cid : ℤ) : Card :=
  { cid := cid, nid := cid, deck := "D", isReview := true, isSuspended := false,
    tags := [], interval := 0 }

/-- Ten review cards with card ids 1..10, none suspended, none tagged. -/
def exCol : List Card :=
  [exCard 1, exCard 2, exCard 3, exCard 4, exCard 5,
   exCard 6, exCard 7, exCard 8, exCard 9, exCard 10]

/-- Revlog oracle for the N=10 scenario: card id `k` has `1000 * k`
milliseconds of cumulative review time, so the distinct times (in seconds)
are 1, 2, ..., 10, in card-id order. -/
def exRl : ℤ → ℚ := fun cid => 1000 * cid

/-- Configuration with all defaults (`suspend_frac = 0`,
`unsuspend_buffer_frac = 1`, `dryrun = true`). -/
def exCfgDefaults : MonolithConfig :=
  { review_time_limits := [], deck_retirements := [] }

/-! Helper lemmas. -/

theorem leechSuspendInd_nonneg (cfg : MonolithConfig) (n : ℕ) :
    0 ≤ leechSuspendInd cfg n :=
  le_max_right _ _

theorem leechUnsuspendInd_nonneg (cfg : MonolithConfig) (n : ℕ) :
    0 ≤ leechUnsuspendInd cfg n :=
  le_max_right _ _

/-- C1: for every non-empty candidate list (N ≥ 1) and all configurations
with `suspend_frac ≥ 0` and `unsuspend_buffer_frac ≥ 0`, the unsuspend index
computed by `suspendLeeches` is at most the suspend index, so the assertion
`unsuspend_ind <= suspend_ind` at line 149 never fails. -/
theorem leech_unsuspend_le_suspend_ind (cfg : MonolithConfig) (n : ℕ)
    (hn : 1 ≤ n) (hs : 0 ≤ cfg.suspend_frac) (hb : 0 ≤ cfg.unsuspend_buffer_frac) :
    leechUnsuspendInd cfg n ≤ leechSuspendInd cfg n := by
  have hu : leechUnsuspendFrac cfg = cfg.suspend_frac + cfg.unsuspend_buffer_frac :=
    max_eq_right (by linarith)
  have hmul : (n : ℚ) * (1 - leechUnsuspendFrac cfg) ≤ (n : ℚ) * (1 - cfg.suspend_frac) := by
    rw [hu]
    apply mul_le_mul_of_nonneg_left (by linarith) (by positivity)
  have hfl := Int.floor_le_floor hmul
  unfold leechUnsuspendInd leechSuspendInd
  omega

/-- Witness for C1 at the default configuration (`suspend_frac = 0`,
`unsuspend_buffer_frac = 1`) with ten candidate cards. -/
theorem leech_unsuspend_le_suspend_ind_witness :
    leechUnsuspendInd exCfgDefaults 10 ≤ leechSuspendInd exCfgDefaults 10 :=
  leech_unsuspend_le_suspend_ind exCfgDefaults 10 (by decide) (le_refl 0) zero_le_one

/-- C2: for a non-empty candidate list of length N and a nonnegative
`min_count`, `suspendLeeches` computes
`suspend_ind = floor(N * (1 - suspend_frac))` clamped to `[min_count, N-1]`,
and `unsuspend_ind` by the same formula and clamping with
`suspend_frac + unsuspend_buffer_frac` in place of `suspend_frac`; in
particular for N = 10, `suspend_frac = 0.2`, `min_count = 0` the suspend
index is 8. -/
theorem leech_cutoff_index_formula (cfg : MonolithConfig) (n : ℕ)
    (hn : 1 ≤ n) (hm : 0 ≤ cfg.min_count) :
    leechSuspendInd cfg n
        = min (max ⌊(n : ℚ) * (1 - cfg.suspend_frac)⌋ cfg.min_count) ((n : ℤ) - 1)
      ∧ leechUnsuspendInd cfg n
        = min (max ⌊(n : ℚ) * (1 - (cfg.suspend_frac + cfg.unsuspend_buffer_frac))⌋
            cfg.min_count) ((n : ℤ) - 1)
      ∧ leechSuspendInd exCfg 10 = 8 := by
  have h1 : (1 : ℤ) ≤ (n : ℤ) := by exact_mod_cast hn
  refine ⟨?_, ?_, ?_⟩
  · unfold leechSuspendInd
    omega
  · rcases le_or_lt 0 (cfg.suspend_frac + cfg.unsuspend_buffer_frac) with h | h
    · have hu : leechUnsuspendFrac cfg = cfg.suspend_frac + cfg.unsuspend_buffer_frac :=
        max_eq_right h
      unfold leechUnsuspendInd
      rw [hu]
      omega
    · have hu : leechUnsuspendFrac cfg = 0 := max_eq_left (le_of_lt h)
      have hfl : ⌊(n : ℚ) * (1 - leechUnsuspendFrac cfg)⌋ = (n : ℤ) := by
        rw [hu]
        norm_num
      have hge : (n : ℤ)
          ≤ ⌊(n : ℚ) * (1 - (cfg.suspend_frac + cfg.unsuspend_buffer_frac))⌋ := by
        apply Int.le_floor.mpr
        push_cast
        nlinarith [Nat.cast_nonneg (α := ℚ) n]
      unfold leechUnsuspendInd
      omega
  · norm_num [leechSuspendInd, exCfg]

/-- Witness for C2 at the N=10 example configuration. -/
theorem leech_cutoff_index_formula_witness :
    leechSuspendInd exCfg 10
        = min (max ⌊(10 : ℚ) * (1 - exCfg.suspend_frac)⌋ exCfg.min_count) ((10 : ℤ) - 1)
      ∧ leechUnsuspendInd exCfg 10
        = min (max ⌊(10 : ℚ) * (1 - (exCfg.suspend_frac + exCfg.unsuspend_buffer_frac))⌋
            exCfg.min_count) ((10 : ℤ) - 1)
      ∧ leechSuspendInd exCfg 10 = 8 :=
  leech_cutoff_index_formula exCfg 10 (by decide) (by decide)

/-- C10: in every run of the leech-suspension operation the set passed to
the suspend call and the set passed to the unsuspend call are disjoint: the
former excludes the currently suspended cards while the latter is contained
in them. -/
theorem suspend_unsuspend_disjoint (sortedInds : List ℤ) (suspendInd unsuspendInd : ℤ)
    (suspended : Finset ℤ) :
    cardsToSuspend sortedInds suspendInd suspended
        ∩ cardsToUnsuspend sortedInds unsuspendInd suspended = ∅ := by
  unfold cardsToSuspend cardsToUnsuspend
  ext x
  simp only [Finset.mem_inter, Finset.mem_sdiff, Finset.not_mem_empty, iff_false]
  rintro ⟨⟨-, hns⟩, -, hs⟩
  exact hns hs

theorem mem_cardsToSuspend_iff (sortedInds : List ℤ) (k : ℤ) (S : Finset ℤ) (x : ℤ)
    (hk : 0 ≤ k) :
    x ∈ cardsToSuspend sortedInds k S ↔
      ((∃ i : ℕ, k < (i : ℤ) ∧ i < sortedInds.length ∧ sortedInds.getD i 0 = x)
        ∧ x ∉ S) := by
  unfold cardsToSuspend
  rw [Finset.mem_sdiff, List.mem_toFinset, List.mem_drop_iff_getElem]
  constructor
  · rintro ⟨⟨i, hm, hx⟩, hns⟩
    refine ⟨⟨(k + 1).toNat + i, by omega, by omega, ?_⟩, hns⟩
    rw [List.getD_eq_getElem _ _ (by omega)]
    exact hx
  · rintro ⟨⟨j, hkj, hjl, hx⟩, hns⟩
    refine ⟨⟨j - (k + 1).toNat, by omega, ?_⟩, hns⟩
    rw [← List.getD_eq_getElem sortedInds 0 (by omega)]
    have hidx : (k + 1).toNat + (j - (k + 1).toNat) = j := by omega
    rw [hidx]
    exact hx

theorem mem_cardsToUnsuspend_iff (sortedInds : List ℤ) (u : ℤ) (S : Finset ℤ) (x : ℤ)
    (hu : 0 ≤ u) :
    x ∈ cardsToUnsuspend sortedInds u S ↔
      ((∃ i : ℕ, (i : ℤ) < u ∧ i < sortedInds.length ∧ sortedInds.getD i 0 = x)
        ∧ x ∈ S) := by
  unfold cardsToUnsuspend
  rw [Finset.mem_inter, List.mem_toFinset, List.mem_take_iff_getElem]
  constructor
  · rintro ⟨⟨i, hm, hx⟩, hs⟩
    rw [lt_inf_iff] at hm
    refine ⟨⟨i, by omega, hm.2, ?_⟩, hs⟩
    rw [List.getD_eq_getElem _ _ hm.2]
    exact hx
  · rintro ⟨⟨i, hiu, hil, hx⟩, hs⟩
    refine ⟨⟨i, lt_inf_iff.mpr ⟨by omega, hil⟩, ?_⟩, hs⟩
    rw [← List.getD_eq_getElem sortedInds 0 hil]
    exact hx

/-- Event trace of the N=10 leech scenario: the two card searches, one
revlog-sum query per candidate, then suspension of the single card ranked
9th (0-indexed) — the highest-time card, id 10 — and unsuspension of the
empty set. -/
def exLeechTrace : List Event :=
  [Event.findCards (leechCandidateQuery exCfg), Event.findCards suspendedReviewQuery,
   Event.dbSumTime 1, Event.dbSumTime 2, Event.dbSumTime 3, Event.dbSumTime 4,
   Event.dbSumTime 5, Event.dbSumTime 6, Event.dbSumTime 7, Event.dbSumTime 8,
   Event.dbSumTime 9, Event.dbSumTime 10,
   Event.suspend {10}, Event.unsuspend ∅]

theorem exLeech_candidates :
    findCardIds exCol (leechCandidatePred exCfg) = [1,2,3,4,5,6,7,8,9,10] := by
  simp [findCardIds, leechCandidatePred, exCol, exCard, exCfg]

theorem exLeech_suspended : findCardIds exCol suspendedReviewPred = [] := by
  simp [findCardIds, suspendedReviewPred, exCol, exCard]

theorem exLeech_inds : leechSortedInds exCfg exCol exRl = [1,2,3,4,5,6,7,8,9,10] := by
  have h3 : leechSortedPairs exCfg exCol exRl =
      [(1,1),(2,2),(3,3),(4,4),(5,5),(6,6),(7,7),(8,8),(9,9),(10,10)] := by
    unfold leechSortedPairs
    rw [exLeech_candidates]
    norm_num [exRl, List.insertionSort, List.orderedInsert, pairLe]
  unfold leechSortedInds
  rw [h3]
  simp

theorem exLeech_suspendInd : leechSuspendInd exCfg 10 = 8 := by
  norm_num [leechSuspendInd, exCfg]

theorem exLeech_unsuspendInd : leechUnsuspendInd exCfg 10 = 0 := by
  norm_num [leechUnsuspendInd, leechUnsuspendFrac, exCfg]

theorem exLeech_toSuspend :
    cardsToSuspend (leechSortedInds exCfg exCol exRl) (leechSuspendInd exCfg 10)
      (findCardIds exCol suspendedReviewPred).toFinset = {10} := by
  rw [exLeech_inds, exLeech_suspendInd, exLeech_suspended]
  simp [cardsToSuspend]

theorem exLeech_run :
    suspendLeechesRun exCfg exCol exRl 1 true = exLeechTrace := by
  unfold suspendLeechesRun
  rw [if_neg (by norm_num [exCfg]), exLeech_candidates, exLeech_suspended, exLeech_inds]
  rw [if_neg (by decide)]
  simp only [List.length_cons, List.length_nil]
  rw [exLeech_suspendInd, exLeech_unsuspendInd]
  rw [if_neg (by norm_num)]
  simp [cardsToSuspend, cardsToUnsuspend, suspend_cards, unsuspend_cards, exCfg,
    exLeechTrace]

/-- C3 (amended): in every run of the leech-suspension operation the set
passed to the suspend call is exactly the candidate cards ranked above
`suspend_ind` in the time-sorted order that are not already suspended, and
the set passed to the unsuspend call is exactly the candidate cards ranked
below `unsuspend_ind` that are currently suspended; in the N=10 scenario
with `suspend_frac = 0.2`, `min_count = 0` (so `suspend_ind = 8`) the single
card ranked 9th (0-indexed) — the highest-time card — is the candidate for
suspension. -/
theorem leech_pass_sets (cfg : MonolithConfig) (col : List Card) (rl : ℤ → ℚ)
    (S : Finset ℤ) (x : ℤ) :
    List.Sorted pairLe (leechSortedPairs cfg col rl)
  ∧ (x ∈ cardsToSuspend (leechSortedInds cfg col rl)
        (leechSuspendInd cfg (leechSortedInds cfg col rl).length) S ↔
      ((∃ i : ℕ, leechSuspendInd cfg (leechSortedInds cfg col rl).length < (i : ℤ)
          ∧ i < (leechSortedInds cfg col rl).length
          ∧ (leechSortedInds cfg col rl).getD i 0 = x) ∧ x ∉ S))
  ∧ (x ∈ cardsToUnsuspend (leechSortedInds cfg col rl)
        (leechUnsuspendInd cfg (leechSortedInds cfg col rl).length) S ↔
      ((∃ i : ℕ, (i : ℤ) < leechUnsuspendInd cfg (leechSortedInds cfg col rl).length
          ∧ i < (leechSortedInds cfg col rl).length
          ∧ (leechSortedInds cfg col rl).getD i 0 = x) ∧ x ∈ S))
  ∧ suspendLeechesRun exCfg exCol exRl 1 true = exLeechTrace := by
  refine ⟨?_, mem_cardsToSuspend_iff _ _ _ _ (leechSuspendInd_nonneg _ _),
    mem_cardsToUnsuspend_iff _ _ _ _ (leechUnsuspendInd_nonneg _ _), exLeech_run⟩
  unfold leechSortedPairs
  exact List.sorted_insertionSort _ _

/-- C3 counterexample: in the spec's N=10 scenario the suspension-candidate
set passed to the suspend call contains exactly one card — the one ranked
9th (0-indexed) — and not the two cards "ranked 9th and 10th" the claim
names (a rank 10 does not exist among ten 0-indexed cards). -/
theorem leech_ninth_tenth_counterexample :
    suspendLeechesRun exCfg exCol exRl 1 true = exLeechTrace
  ∧ leechSuspendInd exCfg 10 = 8
  ∧ cardsToSuspend (leechSortedInds exCfg exCol exRl) (leechSuspendInd exCfg 10)
      (findCardIds exCol suspendedReviewPred).toFinset = {10}
  ∧ Finset.card ({10} : Finset ℤ) = 1
  ∧ Finset.card ({10} : Finset ℤ) ≠ 2 :=
  ⟨exLeech_run, exLeech_suspendInd, exLeech_toSuspend, by decide, by decide⟩

/-- Retirement entry of the spec's example: deck "D" with a 30-day maximum
interval. -/
def exRc : RetirementConfig := { deck_name := "D", max_interval_days := 30 }

/-- Configuration for the retirement example (confirmations skipped,
mutations live). -/
def exCfgRetire : MonolithConfig :=
  { review_time_limits := [], deck_retirements := [exRc], verbose := false,
    dryrun := false, last_run := 0 }

/-- Two cards in deck "D" on distinct notes: card 1 has interval 31 days
and is not yet retired; card 2 has interval 29 days and is currently retired
(suspended and tagged). -/
def exColRetire : List Card :=
  [{ cid := 1, nid := 1, deck := "D", isReview := true, isSuspended := false, tags := [],
     interval := 31 },
   { cid := 2, nid := 2, deck := "D", isReview := true, isSuspended := true,
     tags := ["Retired"], interval := 29 }]

/-- Two cards of the SAME note 100 in deck "D": card 1 has interval 31 days
(not suspended, note untagged), its sibling card 2 has interval 29 days and
is suspended but — the note being untagged — is not retired at the start of
the run. -/
def exColNote : List Card :=
  [{ cid := 1, nid := 100, deck := "D", isReview := true, isSuspended := false, tags := [],
     interval := 31 },
   { cid := 2, nid := 100, deck := "D", isReview := true, isSuspended := true, tags := [],
     interval := 29 }]

theorem intervalOf_eq (col : List Card) (c : Card)
    (hnd : (col.map Card.cid).Nodup) (hc : c ∈ col) :
    intervalOf col c.cid = c.interval := by
  induction col with
  | nil => cases hc
  | cons hd t ih =>
    rw [List.map_cons, List.nodup_cons] at hnd
    rcases List.mem_cons.mp hc with rfl | hct
    · unfold intervalOf
      rw [List.find?_cons_of_pos _ (by simp)]
    · by_cases he : hd.cid = c.cid
      · exact absurd (he ▸ List.mem_map_of_mem Card.cid hct) hnd.1
      · unfold intervalOf
        rw [List.find?_cons_of_neg _ (by simpa using he)]
        exact ih hnd.2 hct

theorem mem_retireToSuspend_iff (cfg : MonolithConfig) (col : List Card)
    (rc : RetirementConfig) (hnd : (col.map Card.cid).Nodup) (cid : ℤ) :
    cid ∈ retireToSuspend cfg col rc ↔
      ∃ c ∈ col, c.cid = cid ∧ retireCandidatePred cfg rc c = true
        ∧ rc.max_interval_days < c.interval := by
  unfold retireToSuspend findCardIds
  simp only [List.mem_filter, List.mem_map, decide_eq_true_eq]
  constructor
  · rintro ⟨⟨c, hcf, rfl⟩, hq⟩
    exact ⟨c, hcf.1, rfl, hcf.2, by rwa [intervalOf_eq col c hnd hcf.1] at hq⟩
  · rintro ⟨c, hcm, rfl, hp, hq⟩
    exact ⟨⟨c, ⟨hcm, hp⟩, rfl⟩, by rwa [intervalOf_eq col c hnd hcm]⟩

theorem mem_retireToUnsuspend_iff (cfg : MonolithConfig) (col : List Card)
    (rc : RetirementConfig) (hnd : (col.map Card.cid).Nodup) (cid : ℤ) :
    cid ∈ retireToUnsuspend cfg col rc ↔
      ∃ c ∈ col, c.cid = cid ∧ retiredSuspendedPred cfg rc c = true
        ∧ c.interval ≤ rc.max_interval_days := by
  unfold retireToUnsuspend findCardIds
  simp only [List.mem_filter, List.mem_map, decide_eq_true_eq]
  constructor
  · rintro ⟨⟨c, hcf, rfl⟩, hq⟩
    exact ⟨c, hcf.1, rfl, hcf.2, by rwa [intervalOf_eq col c hnd hcf.1] at hq⟩
  · rintro ⟨c, hcm, rfl, hp, hq⟩
    exact ⟨⟨c, ⟨hcm, hp⟩, rfl⟩, by rwa [intervalOf_eq col c hnd hcm]⟩

theorem mem_retireToSuspend_attrs (cfg : MonolithConfig) (col : List Card)
    (rc : RetirementConfig) (hnd : (col.map Card.cid).Nodup) (cid : ℤ) :
    cid ∈ retireToSuspend cfg col rc ↔
      ∃ c ∈ col, c.cid = cid ∧ deckMatches rc.deck_name c = true ∧ c.isReview = true
        ∧ ¬(c.isSuspended = true ∧ c.tags.contains cfg.retired_tag = true)
        ∧ rc.max_interval_days < c.interval := by
  rw [mem_retireToSuspend_iff cfg col rc hnd cid]
  constructor
  · rintro ⟨c, hcm, rfl, hp, hq⟩
    simp only [retireCandidatePred, Bool.and_eq_true, Bool.or_eq_true,
      Bool.not_eq_true'] at hp
    refine ⟨c, hcm, rfl, hp.1.1, hp.1.2, ?_, hq⟩
    rintro ⟨h1, h2⟩
    rcases hp.2 with h | h
    · rw [h1] at h
      cases h
    · rw [h2] at h
      cases h
  · rintro ⟨c, hcm, rfl, hd, hr, hns, hq⟩
    refine ⟨c, hcm, rfl, ?_, hq⟩
    simp only [retireCandidatePred, Bool.and_eq_true, Bool.or_eq_true, Bool.not_eq_true']
    refine ⟨⟨hd, hr⟩, ?_⟩
    rcases Bool.eq_false_or_eq_true c.isSuspended with h | h
    · rcases Bool.eq_false_or_eq_true (c.tags.contains cfg.retired_tag) with h2 | h2
      · exact absurd ⟨h, h2⟩ hns
      · exact Or.inr h2
    · exact Or.inl h

theorem mem_retireToUnsuspend_attrs (cfg : MonolithConfig) (col : List Card)
    (rc : RetirementConfig) (hnd : (col.map Card.cid).Nodup) (cid : ℤ) :
    cid ∈ retireToUnsuspend cfg col rc ↔
      ∃ c ∈ col, c.cid = cid ∧ deckMatches rc.deck_name c = true ∧ c.isReview = true
        ∧ c.isSuspended = true ∧ c.tags.contains cfg.retired_tag = true
        ∧ c.interval ≤ rc.max_interval_days := by
  rw [mem_retireToUnsuspend_iff cfg col rc hnd cid]
  constructor
  · rintro ⟨c, hcm, rfl, hp, hq⟩
    simp only [retiredSuspendedPred, Bool.and_eq_true] at hp
    exact ⟨c, hcm, rfl, hp.1.1.1, hp.1.1.2, hp.1.2, hp.2, hq⟩
  · rintro ⟨c, hcm, rfl, hd, hr, hs, ht, hq⟩
    refine ⟨c, hcm, rfl, ?_, hq⟩
    simp only [retiredSuspendedPred, Bool.and_eq_true]
    exact ⟨⟨⟨hd, hr⟩, hs⟩, ht⟩

theorem map_cid_applySuspend (col : List Card) (ids : Finset ℤ) :
    (applySuspend col ids).map Card.cid = col.map Card.cid := by
  unfold applySuspend
  rw [List.map_map]
  apply List.map_congr_left
  intro c hc
  simp only [Function.comp]
  split_ifs <;> rfl

theorem map_cid_applyUnsuspend (col : List Card) (ids : Finset ℤ) :
    (applyUnsuspend col ids).map Card.cid = col.map Card.cid := by
  unfold applyUnsuspend
  rw [List.map_map]
  apply List.map_congr_left
  intro c hc
  simp only [Function.comp]
  split_ifs <;> rfl

theorem map_cid_applyTagNotes (col : List Card) (nids : Finset ℤ) (t : String) :
    (applyTagNotes col nids t).map Card.cid = col.map Card.cid := by
  unfold applyTagNotes addTag
  rw [List.map_map]
  apply List.map_congr_left
  intro c hc
  simp only [Function.comp]
  split_ifs <;> rfl

theorem map_cid_retireCol1 (cfg : MonolithConfig) (col : List Card)
    (rc : RetirementConfig) (confirmRetire : Bool) :
    (retireCol1 cfg col rc confirmRetire).map Card.cid = col.map Card.cid := by
  unfold retireCol1 tag_cards suspend_cards
  split_ifs <;>
    simp [map_cid_applyTagNotes, map_cid_applySuspend]

/-- C4 (amended): for a configured (deck, max_interval_days) entry, the
retirement operation suspends and tags as retired exactly the not-yet-retired
review cards of the deck whose interval strictly exceeds the threshold
(tagging applies to whole notes), and then unsuspends exactly the cards that
are retired-and-suspended in the post-suspend-and-tag state of the collection
whose interval is at most the threshold — the second query runs after the
first block's mutations; concretely, against a 30-day threshold a
not-yet-retired card with interval 31 is suspended and tagged "Retired" and
a retired-and-suspended card with interval 29 is unsuspended. -/
theorem retire_sets_characterization (cfg : MonolithConfig) (col : List Card)
    (rc : RetirementConfig) (confirmRetire : Bool)
    (hnd : (col.map Card.cid).Nodup) :
    (∀ cid : ℤ, cid ∈ retireToSuspend cfg col rc ↔
      ∃ c ∈ col, c.cid = cid ∧ deckMatches rc.deck_name c = true ∧ c.isReview = true
        ∧ ¬(c.isSuspended = true ∧ c.tags.contains cfg.retired_tag = true)
        ∧ rc.max_interval_days < c.interval)
  ∧ (∀ cid : ℤ, cid ∈ retireToUnsuspend cfg (retireCol1 cfg col rc confirmRetire) rc ↔
      ∃ c ∈ retireCol1 cfg col rc confirmRetire, c.cid = cid
        ∧ deckMatches rc.deck_name c = true ∧ c.isReview = true
        ∧ c.isSuspended = true ∧ c.tags.contains cfg.retired_tag = true
        ∧ c.interval ≤ rc.max_interval_days)
  ∧ retireToSuspend exCfgRetire exColRetire exRc = [1]
  ∧ retireToUnsuspend exCfgRetire (retireCol1 exCfgRetire exColRetire exRc true) exRc = [2]
  ∧ (retireRunDeck exCfgRetire exColRetire exRc true true).2 =
      [Event.findCards (retireCandidateQuery exCfgRetire exRc), Event.cardStats 1,
       Event.suspend {1}, Event.tag {1} exCfgRetire.retired_tag,
       Event.findCards (retiredSuspendedQuery exCfgRetire exRc), Event.cardStats 1,
       Event.cardStats 2, Event.unsuspend {2}] := by
  have hnd1 : ((retireCol1 cfg col rc confirmRetire).map Card.cid).Nodup := by
    rw [map_cid_retireCol1]
    exact hnd
  exact ⟨mem_retireToSuspend_attrs cfg col rc hnd,
    mem_retireToUnsuspend_attrs cfg _ rc hnd1, by decide, by decide, by decide⟩

/-- C4 counterexample: two cards of the same note in deck "D" against a
30-day threshold — card 1 (interval 31, not suspended) and its suspended
sibling card 2 (interval 29), the shared note untagged.  At the start of the
run no card of the collection is retired-and-suspended, so the original
claim unsuspends nothing; the program retires card 1, which tags the shared
note, and its second query then finds card 2 suspended-and-tagged with
interval at most the threshold and unsuspends it. -/
theorem retire_exactly_counterexample :
    findCardIds exColNote (retiredSuspendedPred exCfgRetire exRc) = []
  ∧ retireToUnsuspend exCfgRetire exColNote exRc = []
  ∧ retireToUnsuspend exCfgRetire (retireCol1 exCfgRetire exColNote exRc true) exRc = [2]
  ∧ (retireRunDeck exCfgRetire exColNote exRc true true).2 =
      [Event.findCards (retireCandidateQuery exCfgRetire exRc), Event.cardStats 1,
       Event.cardStats 2, Event.suspend {1}, Event.tag {1} exCfgRetire.retired_tag,
       Event.findCards (retiredSuspendedQuery exCfgRetire exRc), Event.cardStats 1,
       Event.cardStats 2, Event.unsuspend {2}] := by
  refine ⟨by decide, by decide, by decide, by decide⟩

/-- Witness for C4 at the concrete two-card deck. -/
theorem retire_sets_characterization_witness :
    ((∀ cid : ℤ, cid ∈ retireToSuspend exCfgRetire exColRetire exRc ↔
      ∃ c ∈ exColRetire, c.cid = cid ∧ deckMatches exRc.deck_name c = true
        ∧ c.isReview = true
        ∧ ¬(c.isSuspended = true ∧ c.tags.contains exCfgRetire.retired_tag = true)
        ∧ exRc.max_interval_days < c.interval)
  ∧ (∀ cid : ℤ,
      cid ∈ retireToUnsuspend exCfgRetire (retireCol1 exCfgRetire exColRetire exRc true) exRc ↔
      ∃ c ∈ retireCol1 exCfgRetire exColRetire exRc true, c.cid = cid
        ∧ deckMatches exRc.deck_name c = true ∧ c.isReview = true
        ∧ c.isSuspended = true ∧ c.tags.contains exCfgRetire.retired_tag = true
        ∧ c.interval ≤ exRc.max_interval_days)
  ∧ retireToSuspend exCfgRetire exColRetire exRc = [1]
  ∧ retireToUnsuspend exCfgRetire (retireCol1 exCfgRetire exColRetire exRc true) exRc = [2]
  ∧ (retireRunDeck exCfgRetire exColRetire exRc true true).2 =
      [Event.findCards (retireCandidateQuery exCfgRetire exRc), Event.cardStats 1,
       Event.suspend {1}, Event.tag {1} exCfgRetire.retired_tag,
       Event.findCards (retiredSuspendedQuery exCfgRetire exRc), Event.cardStats 1,
       Event.cardStats 2, Event.unsuspend {2}]) :=
  retire_sets_characterization exCfgRetire exColRetire exRc true (by decide)

theorem suspendLeechesRun_no_mutation (cfg : MonolithConfig) (col : List Card)
    (rl : ℤ → ℚ) (day : ℚ) (confirm : Bool) (hd : cfg.dryrun = true) :
    ∀ e ∈ suspendLeechesRun cfg col rl day confirm, e.isMutation = false := by
  intro e he
  unfold suspendLeechesRun at he
  simp only [suspend_cards, unsuspend_cards, hd, if_true, ite_self, List.append_nil,
    List.nil_append] at he
  split_ifs at he <;>
    first
      | (simp only [List.mem_append, List.mem_cons, List.mem_map, List.not_mem_nil,
           or_false] at he
         rcases he with (rfl | rfl) | ⟨cid, -, rfl⟩ <;> rfl)
      | cases he

theorem retireRunDeck_no_mutation (cfg : MonolithConfig) (col : List Card)
    (rc : RetirementConfig) (c1 c2 : Bool) (hd : cfg.dryrun = true) :
    ∀ e ∈ (retireRunDeck cfg col rc c1 c2).2, e.isMutation = false := by
  intro e he
  unfold retireRunDeck at he
  simp only [suspend_cards, unsuspend_cards, tag_cards, hd, if_true, ite_self,
    List.append_nil, List.nil_append, List.append_assoc] at he
  simp only [List.mem_append, List.mem_cons, List.mem_map, List.not_mem_nil,
    or_false] at he
  rcases he with rfl | ⟨cid, -, rfl⟩ | rfl | ⟨cid, -, rfl⟩ <;> rfl

theorem retireRun_no_mutation (cfg : MonolithConfig) (col : List Card) (day : ℚ)
    (c1 c2 : Bool) (hd : cfg.dryrun = true) :
    ∀ e ∈ (retireRun cfg col day c1 c2).2, e.isMutation = false := by
  have main : ∀ (rcs : List RetirementConfig) (acc : List Card × List Event),
      (∀ e ∈ acc.2, e.isMutation = false) →
      ∀ e ∈ (rcs.foldl (retireStep cfg c1 c2) acc).2, e.isMutation = false := by
    intro rcs
    induction rcs with
    | nil =>
      intro acc hacc e he
      exact hacc e he
    | cons rc t ih =>
      intro acc hacc e he
      rw [List.foldl_cons] at he
      refine ih _ ?_ e he
      intro x hx
      unfold retireStep at hx
      rcases List.mem_append.mp hx with h | h
      · exact hacc x h
      · exact retireRunDeck_no_mutation cfg acc.1 rc c1 c2 hd x h
  intro e he
  unfold retireRun at he
  split_ifs at he
  · cases he
  · exact main cfg.deck_retirements (col, []) (fun x hx => absurd hx (List.not_mem_nil x))
      e he

theorem adjustDeck_no_mutation (cfg : MonolithConfig) (tlc : TimeLimitConfig)
    (db : Option ℚ × Option ℚ) (confirm : Bool) (hd : cfg.dryrun = true) :
    ∀ e ∈ adjustDeck cfg tlc db confirm, e.isMutation = false := by
  intro e he
  unfold adjustDeck at he
  simp only [save_config, hd, if_true, ite_self, List.append_nil] at he
  simp only [List.mem_cons, List.not_mem_nil, or_false] at he
  rcases he with rfl | rfl <;> rfl

theorem adjustReviewRun_no_mutation (cfg : MonolithConfig)
    (db : String → Option ℚ × Option ℚ) (day : ℚ) (confirm : Bool)
    (hd : cfg.dryrun = true) :
    ∀ e ∈ adjustReviewRun cfg db day confirm, e.isMutation = false := by
  intro e he
  unfold adjustReviewRun at he
  split_ifs at he
  · cases he
  · simp only [List.mem_flatten, List.mem_map] at he
    rcases he with ⟨l, ⟨tlc, -, rfl⟩, hel⟩
    exact adjustDeck_no_mutation cfg tlc (db tlc.deck_name) confirm hd e hel

/-- C5: when the dryrun flag is set, no run of any operation issues a host
mutation (suspend, unsuspend, tag, or save): every event of every trace is a
read-only query, `update_last_run` does nothing, and each mutating wrapper
is the constant no-op. -/
theorem dryrun_no_mutations (cfg : MonolithConfig) (col : List Card) (rl : ℤ → ℚ)
    (db : String → Option ℚ × Option ℚ) (day : ℚ) (c1 c2 c3 c4 : Bool)
    (hd : cfg.dryrun = true) :
    (∀ e ∈ suspendLeechesRun cfg col rl day c1, e.isMutation = false)
  ∧ (∀ e ∈ (retireRun cfg col day c2 c3).2, e.isMutation = false)
  ∧ (∀ e ∈ adjustReviewRun cfg db day c4, e.isMutation = false)
  ∧ update_last_run cfg day = (cfg, [])
  ∧ (∀ s : Finset ℤ, suspend_cards cfg col s = (col, [])
      ∧ unsuspend_cards cfg col s = (col, [])
      ∧ ∀ t : String, tag_cards cfg col s t = (col, []))
  ∧ (∀ d : String, ∀ np rp : ℤ, save_config cfg d np rp = []) := by
  refine ⟨suspendLeechesRun_no_mutation cfg col rl day c1 hd,
    retireRun_no_mutation cfg col day c2 c3 hd,
    adjustReviewRun_no_mutation cfg db day c4 hd, ?_, ?_, ?_⟩
  · unfold update_last_run
    rw [if_pos hd]
  · intro s
    exact ⟨by simp [suspend_cards, hd], by simp [unsuspend_cards, hd],
      fun t => by simp [tag_cards, hd]⟩
  · intro d np rp
    simp [save_config, hd]

/-- Witness for C5: the default configuration has `dryrun = true`; on an
empty collection the leech run consists of the two (query) searches only and
all wrappers are no-ops. -/
theorem dryrun_no_mutations_witness :
    (∀ e ∈ suspendLeechesRun exCfgDefaults [] (fun _ => 0) 1 true, e.isMutation = false)
  ∧ (∀ e ∈ (retireRun exCfgDefaults [] 1 true true).2, e.isMutation = false)
  ∧ (∀ e ∈ adjustReviewRun exCfgDefaults (fun _ => (none, none)) 1 true,
      e.isMutation = false)
  ∧ update_last_run exCfgDefaults 1 = (exCfgDefaults, [])
  ∧ (∀ s : Finset ℤ, suspend_cards exCfgDefaults [] s = ([], [])
      ∧ unsuspend_cards exCfgDefaults [] s = ([], [])
      ∧ ∀ t : String, tag_cards exCfgDefaults [] s t = ([], []))
  ∧ (∀ d : String, ∀ np rp : ℤ, save_config exCfgDefaults d np rp = []) :=
  dryrun_no_mutations exCfgDefaults [] (fun _ => 0) (fun _ => (none, none)) 1
    true true true true rfl

/-- C6: whenever `last_run` is at least the start-of-current-day timestamp,
each of the three operations returns immediately: its trace is empty, so no
host query and no mutation is issued. -/
theorem daily_gate_noop (cfg : MonolithConfig) (col : List Card) (rl : ℤ → ℚ)
    (db : String → Option ℚ × Option ℚ) (day : ℚ) (c1 c2 c3 c4 : Bool)
    (h : cfg.last_run ≥ day) :
    suspendLeechesRun cfg col rl day c1 = []
  ∧ retireRun cfg col day c2 c3 = (col, [])
  ∧ adjustReviewRun cfg db day c4 = [] := by
  refine ⟨?_, ?_, ?_⟩
  · unfold suspendLeechesRun
    rw [if_pos h]
  · unfold retireRun
    rw [if_pos h]
  · unfold adjustReviewRun
    rw [if_pos h]

/-- Witness for C6: with `last_run = 0` and the day timestamp 0 (`last_run`
not older than the current day), all three operations are no-ops. -/
theorem daily_gate_noop_witness :
    suspendLeechesRun exCfgDefaults [exCard 1] (fun _ => 0) 0 true = []
  ∧ retireRun exCfgDefaults [exCard 1] 0 true true = ([exCard 1], [])
  ∧ adjustReviewRun exCfgDefaults (fun _ => (none, none)) 0 true = [] :=
  daily_gate_noop exCfgDefaults [exCard 1] (fun _ => 0) (fun _ => (none, none)) 0
    true true true true (le_refl 0)

/-- Time-limit entry of the spec's quota example: deck "Q" with the default
one-hour budget (3600 s) and assumed repeat count 5. -/
def exTlc : TimeLimitConfig := { deck_name := "Q" }

/-- Configuration for the quota example (confirmations skipped, mutations
live, `default_review_seconds = 60`, `goal_retention = 0.8`). -/
def exCfgQuota : MonolithConfig :=
  { review_time_limits := [exTlc], deck_retirements := [], verbose := false,
    dryrun := false, last_run := 0 }

/-- Scalar results of the quota example's window queries: average review
time 60 s, average lapse rate 0.2 (retention 0.8). -/
def exDb : Option ℚ × Option ℚ := (some 60, some (1/5))

theorem pyInt_eq_floor (q : ℚ) (h : 0 ≤ q) : pyInt q = ⌊q⌋ := by
  unfold pyInt
  rw [if_pos h]

/-- C7: for every configured time-limit entry the quota-adjustment operation
writes `review_per_day = floor(time_limit_sec * avg_retention / avg_review)`
and `new_per_day = floor(time_limit_sec * avg_retention / (assumed_repeats *
avg_review))` into the deck configuration (whenever the used quantities are
nonnegative, with a positive average review time and repeat count, Python's
`int` truncation agrees with the floor); in particular with a 60 s average
review, retention 0.8, a 3600 s budget and 5 assumed repeats the quotas are
48 and 9. -/
theorem quota_formula (cfg : MonolithConfig) (tlc : TimeLimitConfig)
    (db : Option ℚ × Option ℚ)
    (h1 : 0 ≤ tlc.review_time_limit_sec)
    (h2 : 0 ≤ retentionUsed cfg db.2)
    (h3 : 0 < avgReviewUsed cfg db.1)
    (h4 : 0 < tlc.new_card_assumed_repeat) :
    quotaRevPerDay cfg tlc db
        = ⌊tlc.review_time_limit_sec * retentionUsed cfg db.2 / avgReviewUsed cfg db.1⌋
  ∧ quotaNewPerDay cfg tlc db
        = ⌊tlc.review_time_limit_sec * retentionUsed cfg db.2 /
            ((tlc.new_card_assumed_repeat : ℚ) * avgReviewUsed cfg db.1)⌋
  ∧ quotaRevPerDay exCfgQuota exTlc exDb = 48
  ∧ quotaNewPerDay exCfgQuota exTlc exDb = 9
  ∧ adjustDeck exCfgQuota exTlc exDb true =
      [Event.dbAvgTime exTlc.deck_name, Event.dbAvgLapse exTlc.deck_name, Event.saveDeckConfig exTlc.deck_name 9 48] := by
  have hrev : quotaRevPerDay exCfgQuota exTlc exDb = 48 := by
    norm_num [quotaRevPerDay, pyInt, retentionUsed, avgReviewUsed, pyOr, exCfgQuota,
      exTlc, exDb]
  have hnew : quotaNewPerDay exCfgQuota exTlc exDb = 9 := by
    norm_num [quotaNewPerDay, pyInt, retentionUsed, avgReviewUsed, pyOr, exCfgQuota,
      exTlc, exDb]
  refine ⟨?_, ?_, hrev, hnew, ?_⟩
  · apply pyInt_eq_floor
    exact div_nonneg (mul_nonneg h1 h2) h3.le
  · apply pyInt_eq_floor
    apply div_nonneg (mul_nonneg h1 h2)
    have : (0 : ℚ) < (tlc.new_card_assumed_repeat : ℚ) := by exact_mod_cast h4
    exact (mul_pos this h3).le
  · unfold adjustDeck
    rw [hrev, hnew]
    simp [save_config, exCfgQuota, exTlc]

/-- Configuration with unit default review time and goal retention 1, used
by the C7 witness so each hypothesis evaluates trivially. -/
def exCfgUnit : MonolithConfig :=
  { review_time_limits := [], deck_retirements := [], goal_retention := 1,
    default_review_seconds := 1 }

/-- Time-limit entry with a unit budget, used by the C7 witness. -/
def exTlcUnit : TimeLimitConfig := { deck_name := "W", review_time_limit_sec := 1 }

/-- Witness for C7 at `exCfgUnit` and `exTlcUnit`. -/
theorem quota_formula_witness :
    (quotaRevPerDay exCfgUnit exTlcUnit (none, none)
      = ⌊exTlcUnit.review_time_limit_sec * retentionUsed exCfgUnit none /
          avgReviewUsed exCfgUnit none⌋)
  ∧ (quotaNewPerDay exCfgUnit exTlcUnit (none, none)
      = ⌊exTlcUnit.review_time_limit_sec * retentionUsed exCfgUnit none /
          ((exTlcUnit.new_card_assumed_repeat : ℚ) * avgReviewUsed exCfgUnit none)⌋)
  ∧ quotaRevPerDay exCfgQuota exTlc exDb = 48
  ∧ quotaNewPerDay exCfgQuota exTlc exDb = 9
  ∧ adjustDeck exCfgQuota exTlc exDb true =
      [Event.dbAvgTime exTlc.deck_name, Event.dbAvgLapse exTlc.deck_name, Event.saveDeckConfig exTlc.deck_name 9 48] :=
  quota_formula exCfgUnit exTlcUnit (none, none)
    zero_le_one (by simp [retentionUsed, pyOr, exCfgUnit])
    (by simp [avgReviewUsed, pyOr, exCfgUnit]) (by decide)

/-- C8 counterexample: a trailing window whose measured average lapse rate
is exactly 0 (data exists and every review passed, so the measured retention
is 1) still makes the code use the configured default, because Python `or`
treats the float `0.0` as missing: with `goal_retention = 0.8` the retention
used is 0.8, not the measured `1 - 0 = 1`. -/
theorem fallback_zero_counterexample :
    retentionUsed exCfgDefaults (some 0) = exCfgDefaults.goal_retention
  ∧ retentionUsed exCfgDefaults (some 0) ≠ 1 - 0 := by
  constructor
  · norm_num [retentionUsed, pyOr, exCfgDefaults]
  · norm_num [retentionUsed, pyOr, exCfgDefaults]

/-- C8 (amended): the quota-adjustment operation uses the measured window
averages whenever the scalar query returns a nonzero value, and falls back
to the configured defaults (`default_review_seconds`, `goal_retention`)
exactly when no window data exists or the measured aggregate is zero
(Python's `or` treats `0.0` like `None`). -/
theorem fallback_semantics (cfg : MonolithConfig) (v : ℚ) (hv : v ≠ 0) :
    avgReviewUsed cfg none = cfg.default_review_seconds
  ∧ avgReviewUsed cfg (some v) = v
  ∧ avgReviewUsed cfg (some 0) = cfg.default_review_seconds
  ∧ retentionUsed cfg none = cfg.goal_retention
  ∧ retentionUsed cfg (some v) = 1 - v
  ∧ retentionUsed cfg (some 0) = cfg.goal_retention := by
  refine ⟨rfl, ?_, ?_, ?_, ?_, ?_⟩
  · simp [avgReviewUsed, pyOr, hv]
  · simp [avgReviewUsed, pyOr]
  · simp [retentionUsed, pyOr]
  · simp [retentionUsed, pyOr, hv]
  · simp [retentionUsed, pyOr]

/-- Witness for C8 (amended) at the default configuration and the measured
value 1. -/
theorem fallback_semantics_witness :
    avgReviewUsed exCfgDefaults none = exCfgDefaults.default_review_seconds
  ∧ avgReviewUsed exCfgDefaults (some 1) = 1
  ∧ avgReviewUsed exCfgDefaults (some 0) = exCfgDefaults.default_review_seconds
  ∧ retentionUsed exCfgDefaults none = exCfgDefaults.goal_retention
  ∧ retentionUsed exCfgDefaults (some 1) = 1 - 1
  ∧ retentionUsed exCfgDefaults (some 0) = exCfgDefaults.goal_retention :=
  fallback_semantics exCfgDefaults 1 one_ne_zero

theorem update_last_run_le (cfg : MonolithConfig) (day : ℚ) :
    cfg.last_run ≤ ((update_last_run cfg day).1).last_run := by
  unfold update_last_run
  split_ifs with h1 h2
  · exact le_refl _
  · exact le_refl _
  · exact le_of_not_ge h2

/-- C9: `last_run` is monotonically non-decreasing and is changed at most
once per calendar day: a second `update_last_run` on the same day is a
no-op, the change — when it happens (`dryrun` off, `last_run` older than
today) — sets `last_run` to the start-of-current-day timestamp and persists
the add-on configuration, and `last_run` never decreases across any
sequence of daily runs (the three operations never write it; only
`update_last_run` does). -/
theorem last_run_monotone_once_per_day (cfg : MonolithConfig) (day : ℚ)
    (days : List ℚ) :
    cfg.last_run ≤ ((update_last_run cfg day).1).last_run
  ∧ update_last_run (update_last_run cfg day).1 day = ((update_last_run cfg day).1, [])
  ∧ (cfg.dryrun = false → cfg.last_run < day →
      ((update_last_run cfg day).1).last_run = day
        ∧ (update_last_run cfg day).2 = [Event.saveAddonConfig day])
  ∧ cfg.last_run ≤ ((days.foldl (fun c d => (update_last_run c d).1) cfg)).last_run := by
  refine ⟨update_last_run_le cfg day, ?_, ?_, ?_⟩
  · unfold update_last_run
    split_ifs with h1 h2 <;> simp_all
  · intro hd hlt
    unfold update_last_run
    rw [if_neg (by rw [hd]; exact Bool.false_ne_true), if_neg (not_le.mpr hlt)]
    exact ⟨rfl, rfl⟩
  · induction days generalizing cfg with
    | nil => exact le_refl _
    | cons d t ih =>
      exact le_trans (update_last_run_le cfg d) (ih ((update_last_run cfg d).1))

/-- Witness for C9: a live configuration (`dryrun = false`, `last_run = 0`)
updated on day 1; the inner implications are discharged at the concrete
input. -/
theorem last_run_monotone_once_per_day_witness :
    exCfgRetire.last_run ≤ ((update_last_run exCfgRetire 1).1).last_run
  ∧ update_last_run (update_last_run exCfgRetire 1).1 1
      = ((update_last_run exCfgRetire 1).1, [])
  ∧ (((update_last_run exCfgRetire 1).1).last_run = 1
      ∧ (update_last_run exCfgRetire 1).2 = [Event.saveAddonConfig 1])
  ∧ exCfgRetire.last_run
      ≤ (([0, 1] : List ℚ).foldl (fun c d => (update_last_run c d).1) exCfgRetire).last_run := by
  obtain ⟨h1, h2, h3, -⟩ := last_run_monotone_once_per_day exCfgRetire 1 [0, 1]
  obtain ⟨-, -, -, h4⟩ := last_run_monotone_once_per_day exCfgRetire 1 [0, 1]
  exact ⟨h1, h2, h3 rfl zero_lt_one, h4⟩

end AddonMonolith
